import Mathlib

/-!
Verification of the Sello PAY transaction orchestrator and the Uzbek
name matcher (`back/name_matcher.py`, `back/server.py`).

Strings are modelled as `List Char` (Python `str` is a sequence of code
points).  Scores are modelled as `ℚ`: every score constant in the source
(1.0, 0.85, 0.75, 0.70, 0.60, 0.55) is an exact decimal, and the order
of these decimals as rationals agrees with their order as IEEE doubles,
so comparisons in the source are faithfully reproduced.
-/

/-- The apostrophe character (code point 39). -/
def apoC : Char := Char.ofNat 39

/-- Backquote. -/
def backqC : Char := Char.ofNat 0x60

/-- Modifier letter turned comma (U+02BB). -/
def mltcC : Char := Char.ofNat 0x02BB

/-- Right single quotation mark (U+2019). -/
def rsqC : Char := Char.ofNat 0x2019

/-- Left single quotation mark (U+2018). -/
def lsqC : Char := Char.ofNat 0x2018

/-- Models `_APOS`: the characters canonicalised to a plain apostrophe. -/
def aposChars : List Char := [apoC, backqC, mltcC, rsqC, lsqC]

/-- Models `_APOS_TABLE` as a character map. -/
def aposTranslate (c : Char) : Char := if c ∈ aposChars then apoC else c

/-- Models `_CYR_MAP`: Cyrillic-to-Latin translation table (char → string). -/
def cyrPairs : List (Char × List Char) :=
  [('а', ['a']), ('б', ['b']), ('в', ['v']), ('г', ['g']), ('д', ['d']),
   ('е', ['e']), ('ё', ['y', 'o']), ('ж', ['j']), ('з', ['z']), ('и', ['i']),
   ('й', ['y']), ('к', ['k']), ('л', ['l']), ('м', ['m']), ('н', ['n']),
   ('о', ['o']), ('п', ['p']), ('р', ['r']), ('с', ['s']), ('т', ['t']),
   ('у', ['u']), ('ф', ['f']), ('х', ['x']), ('ц', ['s']), ('ч', ['c', 'h']),
   ('ш', ['s', 'h']), ('ъ', []), ('ь', []), ('э', ['e']), ('ю', ['y', 'u']),
   ('я', ['y', 'a']),
   ('қ', ['q']), ('ғ', ['g', apoC]), ('ҳ', ['h']), ('ў', ['o', apoC]),
   ('А', ['a']), ('Б', ['b']), ('В', ['v']), ('Г', ['g']), ('Д', ['d']),
   ('Е', ['e']), ('Ё', ['y', 'o']), ('Ж', ['j']), ('З', ['z']), ('И', ['i']),
   ('Й', ['y']), ('К', ['k']), ('Л', ['l']), ('М', ['m']), ('Н', ['n']),
   ('О', ['o']), ('П', ['p']), ('Р', ['r']), ('С', ['s']), ('Т', ['t']),
   ('У', ['u']), ('Ф', ['f']), ('Х', ['x']), ('Ц', ['s']), ('Ч', ['c', 'h']),
   ('Ш', ['s', 'h']), ('Ъ', []), ('Ь', []), ('Э', ['e']), ('Ю', ['y', 'u']),
   ('Я', ['y', 'a']),
   ('Қ', ['q']), ('Ғ', ['g', apoC]), ('Ҳ', ['h']), ('Ў', ['o', apoC])]

/-- One character through `_CYR_MAP` (characters not in the table pass
through unchanged, as with `str.translate`). -/
def cyrMapChar (c : Char) : List Char :=
  ((cyrPairs.find? (fun p => p.1 == c)).map Prod.snd).getD [c]

/-- Models `_cyr_to_lat`. -/
def cyrToLat (s : List Char) : List Char := s.flatMap cyrMapChar

/-- Python `str.strip()`: drop leading and trailing whitespace. -/
def pyStrip (s : List Char) : List Char :=
  ((s.dropWhile Char.isWhitespace).reverse.dropWhile Char.isWhitespace).reverse

/-- Model of `unicodedata.normalize("NFD", ·)` per character: canonical
decomposition.  Characters relevant here (ASCII, the transliteration
output, apostrophe variants) are NFD-inert; a few precomposed Latin
letters are decomposed explicitly as representatives.  Everything else
passes through unchanged. -/
def nfdChar (c : Char) : List Char :=
  if c = Char.ofNat 0xE9 then [Char.ofNat 0x65, Char.ofNat 0x301]       -- е-acute
  else if c = Char.ofNat 0xE1 then [Char.ofNat 0x61, Char.ofNat 0x301]  -- a-acute
  else if c = Char.ofNat 0xF1 then [Char.ofNat 0x6E, Char.ofNat 0x303]  -- n-tilde
  else if c = Char.ofNat 0xFC then [Char.ofNat 0x75, Char.ofNat 0x308]  -- u-diaeresis
  else [c]

/-- Model of `unicodedata.category(ch) == "Mn"`: combining diacritical
marks (the block U+0300–U+036F, which covers every mark produced by
`nfdChar`). -/
def isMn (c : Char) : Bool := 0x300 ≤ c.toNat && c.toNat ≤ 0x36F

/-- Python `str.replace(p, r)`, fuelled so that the recursion is
structural: each step consumes at least one character, so fuel
`s.length` never runs out (the fuel-exhausted branch is unreachable).
Occurrences are replaced left to right and the replacement text is not
rescanned.  (All patterns used in the source are non-empty; an empty
pattern is treated as no match.) -/
def pyReplaceF (p r : List Char) : Nat → List Char → List Char
  | _, [] => []
  | 0, s => s
  | n + 1, c :: rest =>
    if p ≠ [] ∧ p <+: (c :: rest) then r ++ pyReplaceF p r n (rest.drop (p.length - 1))
    else c :: pyReplaceF p r n rest

/-- Python `str.replace(p, r)`. -/
def pyReplace (p r s : List Char) : List Char := pyReplaceF p r s.length s

/-- The vowels of the elongation-collapsing regex `([aeiou])\1+`. -/
def isVowel (c : Char) : Bool := c ∈ ['a', 'e', 'i', 'o', 'u']

/-- Models `re.sub(r"(.)\1{2,}", r"\1\1", s)`: every maximal run of 3 or more
identical characters is shortened to 2 (dropping from the front of the
run leaves its last two characters). -/
def collapse3 : List Char → List Char
  | [] => []
  | [a] => [a]
  | [a, b] => [a, b]
  | a :: b :: c :: t =>
    if a = b ∧ b = c then collapse3 (b :: c :: t)
    else a :: collapse3 (b :: c :: t)

/-- Models `re.sub(r"([aeiou])\1+", r"\1", s)`: maximal runs of an identical
vowel collapse to a single vowel. -/
def collapseV : List Char → List Char
  | [] => []
  | [a] => [a]
  | a :: b :: t =>
    if a = b ∧ isVowel a then collapseV (b :: t)
    else a :: collapseV (b :: t)

/-- Models `_collapse_elongations`. -/
def collapseElongations (s : List Char) : List Char := collapseV (collapse3 s)

/-- Python `str.split()` (no separator): split on whitespace runs,
dropping empty pieces.  `acc` holds the current word reversed. -/
def splitWsGo : List Char → List Char → List (List Char)
  | [], acc => if acc = [] then [] else [acc.reverse]
  | c :: rest, acc =>
    if c.isWhitespace then
      if acc = [] then splitWsGo rest [] else acc.reverse :: splitWsGo rest []
    else splitWsGo rest (c :: acc)

def splitWs (s : List Char) : List (List Char) := splitWsGo s []

/-- Python `str.split(sep)` for a one-character separator: keeps empty
pieces. -/
def splitSepGo (sep : Char) : List Char → List Char → List (List Char)
  | [], acc => [acc.reverse]
  | c :: rest, acc =>
    if c = sep then acc.reverse :: splitSepGo sep rest []
    else splitSepGo sep rest (c :: acc)

def splitSep (sep : Char) (s : List Char) : List (List Char) := splitSepGo sep s []

/-- Models `" ".join(parts)`. -/
def joinSpace (parts : List (List Char)) : List Char := List.intercalate [' '] parts

/-- Model of Python `ch.isalnum()` on the working alphabet (after the
Cyrillic table every letter relevant here is ASCII). -/
def pyIsAlnum (c : Char) : Bool := c.isAlphanum

/-- Model of Python `str.lower()` per character (ASCII case folding;
the Cyrillic range has already been transliterated at this point). -/
def pyLower (c : Char) : Char := c.toLower

/-- Models `_normalize_uz`, step for step.  NFC after removing all combining
marks recomposes nothing relevant and is modelled as the identity. -/
def normalizeUz (s : List Char) : List Char :=
  let s1 := cyrToLat (pyStrip s)
  let s2 := (s1.flatMap nfdChar).filter (fun c => !isMn c)
  let s3 := s2.map aposTranslate
  let s4 := pyReplace ['o', rsqC] ['o', apoC] s3
  let s5 := pyReplace ['g', rsqC] ['g', apoC] s4
  let s6 := s5.map pyLower
  let s7 := s6.filter (fun c => pyIsAlnum c || c ∈ [' ', apoC, '-'])
  let s8 := joinSpace (splitWs s7)
  collapseElongations s8

/-- Models `_phonetic`: sequential digraph folding. -/
def phoneticFold (s : List Char) : List Char :=
  let s1 := pyReplace ['s', 'h'] ['š'] s
  let s2 := pyReplace ['c', 'h'] ['č'] s1
  let s3 := pyReplace ['n', 'g'] ['ŋ'] s2
  let s4 := pyReplace ['k', 'h'] ['x'] s3
  let s5 := pyReplace ['g', apoC] ['g'] s4
  pyReplace ['o', apoC] ['o'] s5

/-- Models `_tokenize`: split the full name on whitespace, then each part on
hyphens, keeping only non-empty tokens. -/
def tokenize (s : List Char) : List (List Char) :=
  (splitWs s).flatMap (fun part => (splitSep '-' part).filter (· ≠ []))

/-- One row of the `_dl` dynamic program.  `pp` is row `i-2`, `p` is row
`i-1`, `ai` is `a[i-1]`, `aPrev` is `a[i-2]` when it exists.  The row is
built left to right; `cur.getD (j-1) 0` is the cell just written. -/
def dlRow (b : List Char) (i : Nat) (ai : Char) (aPrev : Option Char)
    (pp p : List Nat) : List Nat :=
  (List.range b.length).foldl
    (fun cur jm1 =>
      let j := jm1 + 1
      let bj := b.getD jm1 ' '
      let cost : Nat := if ai = bj then 0 else 1
      let v := min (min (p.getD j 0 + 1) (cur.getD jm1 0 + 1)) (p.getD jm1 0 + cost)
      let v :=
        if 1 < i ∧ 1 < j ∧ ai = b.getD (jm1 - 1) ' ' ∧ aPrev = some bj then
          min v (pp.getD (j - 2) 0 + 1)
        else v
      cur ++ [v])
    [i]

/-- The `_dl` matrix, row by row.  The fold state is `(row i-2, row i-1)`. -/
def dlMat (a b : List Char) : Nat :=
  ((List.range a.length).foldl
    (fun st im1 =>
      let i := im1 + 1
      let ai := a.getD im1 ' '
      let aPrev : Option Char := if 1 ≤ im1 then some (a.getD (im1 - 1) ' ') else none
      (st.2, dlRow b i ai aPrev st.1 st.2))
    ([], List.range (b.length + 1))).2.getD b.length 0

/-- Models `_dl`: restricted Damerau–Levenshtein distance (optimal string
alignment), with the `a == b` shortcut of the source. -/
def dl (a b : List Char) : Nat := if a = b then 0 else dlMat a b

/-- Models `_tier_similarity`: the ordered tier rule, returning the first
matching tier. -/
def tierSim (x y : List Char) : ℚ :=
  if x = [] ∨ y = [] then 0
  else if x = y then 1
  else
    let d := dl x y
    if d = 1 then 0.85
    else if d = 2 then 0.70
    else if 3 ≤ x.length ∧ x <+: y then 0.75
    else if 4 ≤ x.length ∧ x <:+: y then 0.55
    else 0

/-- Models `_COMMON_SUFFIXES`, in source order. -/
def commonSuffixes : List (List Char) :=
  [['j','o','n'], ['b','e','k'], ['x','o','n'], ['h','o','n'],
   ['i','d','d','i','n'], ['u','d','d','i','n'], ['u','l','l','o','h'],
   ['q','u','l','i'], ['q','u','l']]

/-- Stable insertion into a list sorted descending by `key` (the earlier
element stays in front on ties, matching the stable sort of Python). -/
def insertByDesc {α β : Type} [LinearOrder β] (key : α → β) (x : α) :
    List α → List α
  | [] => [x]
  | y :: ys => if key y ≤ key x then x :: y :: ys else y :: insertByDesc key x ys

/-- Python `sorted(l, key=key, reverse=True)`: stable descending sort. -/
def pySortByDesc {α β : Type} [LinearOrder β] (key : α → β) : List α → List α
  | [] => []
  | x :: t => insertByDesc key x (pySortByDesc key t)

/-- The walk of `_strip_suffix` over the length-sorted suffix list. -/
def stripSuffixGo (s : List Char) : List (List Char) → List Char
  | [] => s
  | suf :: rest =>
    if suf <:+ s ∧ suf.length + 1 < s.length then s.take (s.length - suf.length)
    else stripSuffixGo s rest

/-- Models `_strip_suffix`: remove the longest matching common suffix, longest
match first (`sorted(key=len, reverse=True)`), provided the remainder
keeps more than one character. -/
def stripSuffix (s : List Char) : List Char :=
  stripSuffixGo s (pySortByDesc List.length commonSuffixes)

/-- Models `dict.fromkeys` de-duplication, keeping the first occurrence of
each key (`seen` accumulates the keys already emitted). -/
def dedupKeysGo (seen : List (List Char)) : List (List Char) → List (List Char)
  | [] => []
  | x :: t => if x ∈ seen then dedupKeysGo seen t else x :: dedupKeysGo (seen ++ [x]) t

def dedupKeys (l : List (List Char)) : List (List Char) := dedupKeysGo [] l

/-- Models `_query_variants`. -/
def queryVariants (q : List Char) : List (List Char) :=
  let v1 := stripSuffix q
  let v2 := if v1 ≠ q then stripSuffix v1 else v1
  dedupKeys [q, v1, v2]

/-- The contribution of one query variant to the running maximum in
`_score_candidate` (Python `max(best, t1, t2, t3)` accumulates as
`max best (max t1 (max t2 t3))`). -/
def variantContrib (usePhonetic : Bool) (useCombined : Bool)
    (given surname combined qv : List Char) : ℚ :=
  if usePhonetic then
    let qvp := phoneticFold qv
    max (tierSim qvp (phoneticFold given))
      (max (tierSim qvp (phoneticFold surname))
        (if useCombined then tierSim qvp (phoneticFold combined) else 0))
  else
    max (tierSim qv given)
      (max (tierSim qv surname)
        (if useCombined then tierSim qv combined else 0))

/-- Models `_score_candidate` (and the public `score`). -/
def scoreCandidate (usePhonetic : Bool) (query fullName : List Char) : ℚ :=
  let qn := normalizeUz query
  let fn := normalizeUz fullName
  let toks := tokenize fn
  if toks = [] then 0
  else
    let given := toks.headD []
    let surname := if 1 < toks.length then toks.getLastD [] else []
    let combined := joinSpace toks
    let useCombined := 6 ≤ qn.length
    (queryVariants qn).foldl
      (fun best qv => max best (variantContrib usePhonetic useCombined given surname combined qv))
      0

attribute [irreducible] scoreCandidate

/-! ## Python dictionaries and the filter function -/

/-- The value found under the `"holder"` key of an item: missing,
present but not a string, or a string. -/
inductive HolderVal
  | absent
  | nonString (tag : String)
  | str (s : String)
deriving DecidableEq, Inhabited

/-- A recipient-style dictionary: the keys read anywhere in the core
(`id`, `name`, `holder`, `masked`, `panMasked`, `pan`), the
`match_score` key that `filter_objects_by_holder` may add, and `extra`
standing for all remaining keys (copied verbatim by `dict(obj)`). -/
structure PyDict where
  id : Option String := none
  name : Option String := none
  holder : HolderVal := .absent
  masked : Option String := none
  panMasked : Option String := none
  pan : Option String := none
  matchScore : Option ℚ := none
  extra : String := ""
deriving DecidableEq, Inhabited

/-- Python `round` to an integer: half to even. -/
def pyRoundHalfEven (q : ℚ) : ℤ :=
  let f := ⌊q⌋
  if q - f < 1 / 2 then f
  else if 1 / 2 < q - f then f + 1
  else if f % 2 = 0 then f else f + 1

/-- Models `round(score, 3)` (all scores are exact two-digit decimals, so the
binary-float rounding of the source is exact here). -/
def pyRound3 (q : ℚ) : ℚ := (pyRoundHalfEven (q * 1000) : ℚ) / 1000

/-- The `scored` list built by the loop of `filter_objects_by_holder`:
items whose holder is a string and whose score reaches `min_score`,
paired with their score.  `out = dict(obj)` is a value-identical copy;
with `include_score` the copy gets a `match_score` entry. -/
def scoredList (usePhonetic includeScore : Bool) (query : String) (minScore : ℚ) :
    List PyDict → List (PyDict × ℚ)
  | [] => []
  | obj :: rest =>
    match obj.holder with
    | .str h =>
      let sc := scoreCandidate usePhonetic query.data h.data
      if minScore ≤ sc then
        (if includeScore then { obj with matchScore := some (pyRound3 sc) } else obj, sc)
          :: scoredList usePhonetic includeScore query minScore rest
      else scoredList usePhonetic includeScore query minScore rest
    | _ => scoredList usePhonetic includeScore query minScore rest

/-- Models `filter_objects_by_holder`: score, filter by the floor, stable-sort
descending by score (`scored.sort(key=lambda x: x[1], reverse=True)`),
return the items. -/
def filterObjectsByHolder (query : String) (items : List PyDict) (minScore : ℚ)
    (usePhonetic includeScore : Bool) : List PyDict :=
  (pySortByDesc Prod.snd (scoredList usePhonetic includeScore query minScore items)).map
    Prod.fst

/-! ### Heap-instrumented version (for the frame property)

Dictionaries live in a heap (`List PyDict`, addresses are indices) and
the input is a list of addresses, so that `out = dict(obj)` — a fresh
allocation — and the subsequent `out["match_score"] = ...` mutation are
explicit. -/

/-- The loop of `filter_objects_by_holder` over a heap.  A matching item
is copied to a fresh address (`heap.length`); only that fresh address is
ever mutated. -/
def filterHeapGo (usePhonetic includeScore : Bool) (query : String) (minScore : ℚ) :
    List Nat → List PyDict → List (Nat × ℚ) → List PyDict × List (Nat × ℚ)
  | [], heap, scored => (heap, scored)
  | a :: rest, heap, scored =>
    let obj := heap.getD a default
    match obj.holder with
    | .str h =>
      let sc := scoreCandidate usePhonetic query.data h.data
      if minScore ≤ sc then
        let outAddr := heap.length
        let heap1 := heap ++ [obj]
        let heap2 :=
          if includeScore then heap1.set outAddr { obj with matchScore := some (pyRound3 sc) }
          else heap1
        filterHeapGo usePhonetic includeScore query minScore rest heap2 (scored ++ [(outAddr, sc)])
      else filterHeapGo usePhonetic includeScore query minScore rest heap scored
    | _ => filterHeapGo usePhonetic includeScore query minScore rest heap scored

/-- Models `filter_objects_by_holder` over a heap: returns the final heap and
the addresses of the result list, sorted as in the source. -/
def filterObjectsByHolderHeap (query : String) (heap : List PyDict) (itemAddrs : List Nat)
    (minScore : ℚ) (usePhonetic includeScore : Bool) : List PyDict × List Nat :=
  let r := filterHeapGo usePhonetic includeScore query minScore itemAddrs heap []
  (r.1, (pySortByDesc Prod.snd r.2).map Prod.fst)

/-! ## The orchestrator (`server.py`) -/

/-- Python truthiness of an optional string (`None` and `""` are falsy). -/
def pyTruthyS (o : Option String) : Bool :=
  match o with
  | none => false
  | some s => s != ""

/-- Models `a or b` for optional strings, as an optional string. -/
def truthyOpt (o : Option String) : Option String :=
  match o with
  | some s => if s = "" then none else some s
  | none => none

/-- Models `a or b` chaining of two `dict.get` results. -/
def pyOr (a b : Option String) : Option String := truthyOpt a <|> truthyOpt b

/-- Python `str.strip()` on `String`. -/
def pyStripS (s : String) : String := (pyStrip s.data).asString

/-- Python `s[-4:]`. -/
def lastFour (s : String) : String := (s.data.drop (s.data.length - 4)).asString

def EVT_STREAM : String := "events:stream"

def OTP_CHANNEL (pid : String) : String := "otp:" ++ pid

def SEL_CHANNEL (sid : String) : String := "select:" ++ sid

def SESSION_KEY (sid : String) : String := "session:" ++ sid

/-- The `data` field of a pub/sub message after `json.loads`: either
malformed JSON (a `JSONDecodeError`, handled as the empty dict) or a
dict carrying some of the keys the waiters read.  (An absent `data`
field is `.payload none none none`, since `msg.get("data") or "{}"`
parses to the empty dict.) -/
inductive MsgData
  | malformed
  | payload (code recipientId cardId : Option String)
deriving DecidableEq

def msgCode : MsgData → Option String
  | .malformed => none
  | .payload c _ _ => c

def msgRecipientId : MsgData → Option String
  | .malformed => none
  | .payload _ r _ => r

def msgCardId : MsgData → Option String
  | .malformed => none
  | .payload _ _ c => c

/-- Models `(payload.get("code") or "").strip()` followed by the `if code:`
test: `some` exactly when a non-empty trimmed code is present. -/
def extractCode (d : MsgData) : Option String :=
  let c := pyStripS ((truthyOpt (msgCode d)).getD "")
  if c = "" then none else some c

/-- Models `(payload.get("recipient_id") or payload.get("card_id") or "").strip()`
followed by the `if sel:` test. -/
def extractSel (d : MsgData) : Option String :=
  let s := pyStripS ((pyOr (msgRecipientId d) (msgCardId d)).getD "")
  if s = "" then none else some s

/-- The polling loop shared by `_wait_code` and `_wait_selected` over the
stream of messages delivered on the subscription, each tagged with its
arrival time (seconds after `start`).  A message with a valid value is
returned at once; otherwise the deadline test `elapsed > timeout_sec`
runs before the next poll.  An exhausted stream times out. -/
def waitLoop (extract : MsgData → Option String) (timeout : ℚ) :
    List (ℚ × MsgData) → Option String
  | [] => none
  | (t, d) :: rest =>
    match extract d with
    | some v => some v
    | none => if timeout < t then none else waitLoop extract timeout rest

/-- A published broadcast event, with the payload fields the source puts
in the JSON body. -/
structure RecChoice where
  id : Option String
  name : String
  masked : String
  panLast4 : Option String
deriving DecidableEq

structure CardChoice where
  id : Option String
  holder : String
  masked : String
  bank : Option String
  main : Option String
  balance : Option String
  currency : Option String
deriving DecidableEq

inductive EventPayload
  | recipientChoices (sessionId : String) (list : List RecChoice) (amount : ℚ)
  | cardChoices (sessionId : String) (list : List CardChoice) (amount : ℚ)
  | codeRequired (paymentId : String) (expiresIn : ℚ)
deriving DecidableEq

/-- Externally visible actions of one `make_transaction` run, in order:
gateway calls, broadcast publishes, and channel (un)subscriptions. -/
inductive TxAction
  | gatewayCall (name : String)
  | publish (channel : String) (payload : EventPayload)
  | subscribe (channel : String)
  | unsubscribe (channel : String)
deriving DecidableEq

/-- Models `_wait_code`: subscribe to `otp:<payment_id>`, poll, and always
unsubscribe (the `finally` block). -/
def waitCodeT (paymentId : String) (msgs : List (ℚ × MsgData)) (timeout : ℚ) :
    Option String × List TxAction :=
  (waitLoop extractCode timeout msgs,
   [.subscribe (OTP_CHANNEL paymentId), .unsubscribe (OTP_CHANNEL paymentId)])

/-- Models `_wait_selected`: subscribe to `select:<sid>`, poll, and always
unsubscribe. -/
def waitSelectedT (sid : String) (msgs : List (ℚ × MsgData)) (timeout : ℚ) :
    Option String × List TxAction :=
  (waitLoop extractSel timeout msgs,
   [.subscribe (SEL_CHANNEL sid), .unsubscribe (SEL_CHANNEL sid)])

/-- What `redis.get(SESSION_KEY(sid))` holds: nothing (absent or
expired key, or an empty string — all falsy), malformed JSON, or a JSON
object with optional `token` / `user_id`. -/
inductive SessionRaw
  | malformed
  | obj (token userId : Option String)
deriving DecidableEq

/-- A gateway response that is a JSON list on success and
`{"error": msg}` on failure. -/
inductive ListResp (α : Type)
  | ok (l : List α)
  | err (msg : String)
deriving DecidableEq

/-- A gateway response that is a JSON object on success and
`{"error": msg}` on failure. -/
inductive DictResp (α : Type)
  | ok (d : α)
  | err (msg : String)
deriving DecidableEq

/-- A card dictionary as built by `get_card_sello` (field values opaque). -/
structure CardDict where
  id : Option String := none
  holder : Option String := none
  masked : Option String := none
  bank : Option String := none
  main : Option String := none
  balance : Option String := none
  currency : Option String := none
  processing : Option String := none
deriving DecidableEq

/-- The prepay response object; `id` is the payment id. -/
structure PrepayResp where
  id : Option String := none
deriving DecidableEq

/-- A raised Python exception. -/
inductive PyExn
  | attributeError (msg : String)
deriving DecidableEq

/-- The environment of one run: the session-store entry and the
responses of every external collaborator (gateway answers, the fresh
correlation ids, and the message streams each wait would observe). -/
structure Env where
  sessionRaw : Option SessionRaw
  recipients : ListResp PyDict
  rsid : String
  recipientMsgs : List (ℚ × MsgData)
  cards : ListResp CardDict
  csid : String
  cardMsgs : List (ℚ × MsgData)
  recById : DictResp PyDict
  prepay : DictResp PrepayResp
  otpMsgs : List (ℚ × MsgData)
  payResp : DictResp String

/-- Models `_get_creds`: a missing key or malformed JSON yields `(None, None)`. -/
def getCreds (e : Env) : Option String × Option String :=
  match e.sessionRaw with
  | none => (none, none)
  | some .malformed => (none, none)
  | some (.obj t u) => (t, u)

/-- The structured result dictionary returned by `make_transaction`
(absent keys are `none`). -/
structure TxResult where
  status : String
  stage : Option String := none
  error : Option String := none
  message : Option String := none
  paymentId : Option String := none
  result : Option String := none
  receiver : Option String := none
deriving DecidableEq

def holderStrOpt : HolderVal → Option String
  | .str s => some s
  | _ => none

/-- Models `map_rec`: the minimal public shape published for recipient choice. -/
def mapRec (r : PyDict) : RecChoice :=
  { id := r.id
    name := (pyOr r.name (holderStrOpt r.holder)).getD "Unknown"
    masked := (pyOr r.masked r.panMasked).getD "****"
    panLast4 :=
      match truthyOpt r.pan with
      | some p => some (lastFour p)
      | none => none }

/-- Models `map_card`. -/
def mapCard (c : CardDict) : CardChoice :=
  { id := c.id
    holder := (truthyOpt c.holder).getD "Card"
    masked := (truthyOpt c.masked).getD "****"
    bank := c.bank
    main := c.main
    balance := c.balance
    currency := c.currency }

/-- Models `make_transaction`, stepwise, returning the structured result (or
the raised exception) together with the trace of external actions. -/
def makeTransaction (e : Env) (recipientName : String) (amount : ℚ) :
    Except PyExn TxResult × List TxAction :=
  let creds := getCreds e
  if pyTruthyS creds.1 && pyTruthyS creds.2 then
    let tr0 : List TxAction := [.gatewayCall "get_recipient_sello"]
    match e.recipients with
    | .err _ =>
      -- `recs = filter_objects_by_holder(recipient_name, recs)` runs BEFORE the
      -- `isinstance(recs, dict) and "error" in recs` check; iterating the error
      -- dict yields its keys, and `"error".get("holder")` raises AttributeError
      (.error (.attributeError "str object has no attribute get"), tr0)
    | .ok recsRaw =>
      let recs := filterObjectsByHolder recipientName recsRaw 0.60 true false
      if recs = [] then
        (.ok { status := "NO_RECIPIENTS", stage := some "recipient_list",
               message := some "No recipients found matching the name." }, tr0)
      else
        -- the `isinstance(recs, dict)` error branch is unreachable here: `recs` is a list
        let recList := (recs.filter (fun r => pyTruthyS r.id)).map mapRec
        let tr1 := tr0 ++ [.publish EVT_STREAM (.recipientChoices e.rsid recList amount)]
        let w1 := waitSelectedT e.rsid e.recipientMsgs 180
        let tr2 := tr1 ++ w1.2
        match w1.1 with
        | none =>
          (.ok { status := "TIMEOUT", stage := some "select_recipient",
                 message := some "Recipient not selected in time." }, tr2)
        | some chosen =>
          let tr3 := tr2 ++ [.gatewayCall "get_card_sello"]
          match e.cards with
          | .err m => (.ok { status := "ERROR", stage := some "card_list", error := some m }, tr3)
          | .ok cardsRaw =>
            let cardList := (cardsRaw.filter (fun c => pyTruthyS c.id)).map mapCard
            let tr4 := tr3 ++ [.publish EVT_STREAM (.cardChoices e.csid cardList amount)]
            let w2 := waitSelectedT e.csid e.cardMsgs 180
            let tr5 := tr4 ++ w2.2
            match w2.1 with
            | none =>
              (.ok { status := "TIMEOUT", stage := some "select_card",
                     message := some "Card not selected in time." }, tr5)
            | some _senderCardId =>
              let tr6 := tr5 ++ [.gatewayCall "get_recipient_sello_by_id"]
              match e.recById with
              | .err m => (.ok { status := "ERROR", stage := some "lookup", error := some m }, tr6)
              | .ok rec =>
                let _cardNum := rec.pan
                let tr7 := tr6 ++ [.gatewayCall "p2p_prepay"]
                match e.prepay with
                | .err m =>
                  (.ok { status := "ERROR", stage := some "prepay", error := some m }, tr7)
                | .ok pre =>
                  match truthyOpt pre.id with
                  | none =>
                    (.ok { status := "ERROR", stage := some "prepay",
                           error := some "No payment_id from prepay" }, tr7)
                  | some paymentId =>
                    let tr8 := tr7 ++ [.publish EVT_STREAM (.codeRequired paymentId 180)]
                    let w3 := waitCodeT paymentId e.otpMsgs 180
                    let tr9 := tr8 ++ w3.2
                    match w3.1 with
                    | none =>
                      (.ok { status := "TIMEOUT", stage := some "await_code",
                             paymentId := some paymentId,
                             message := some "No code within 3 minutes. Try again." }, tr9)
                    | some _code =>
                      let tr10 := tr9 ++ [.gatewayCall "p2p_pay"]
                      match e.payResp with
                      | .err m =>
                        (.ok { status := "ERROR", stage := some "pay",
                               paymentId := some paymentId, error := some m }, tr10)
                      | .ok payRes =>
                        (.ok { status := "CONFIRMED", paymentId := some paymentId,
                               result := some payRes, receiver := some chosen }, tr10)
  else
    (.ok { status := "ERROR", stage := some "creds",
           error := some "Missing credentials for session" }, [])

/-! ## Helper lemmas -/

theorem mem_insertByDesc {α β : Type} [LinearOrder β] (key : α → β) (x z : α)
    (l : List α) : z ∈ insertByDesc key x l ↔ z = x ∨ z ∈ l := by
  induction l with
  | nil => simp [insertByDesc]
  | cons y ys ih =>
    rw [insertByDesc]
    by_cases h : key y ≤ key x
    · simp [h]
    · simp only [if_neg h, List.mem_cons, ih]
      tauto

theorem pairwise_insertByDesc {α β : Type} [LinearOrder β] (key : α → β) (x : α)
    (l : List α) (h : l.Pairwise (fun a b => key b ≤ key a)) :
    (insertByDesc key x l).Pairwise (fun a b => key b ≤ key a) := by
  induction l with
  | nil => simp [insertByDesc]
  | cons y ys ih =>
    rw [List.pairwise_cons] at h
    rw [insertByDesc]
    by_cases hc : key y ≤ key x
    · rw [if_pos hc, List.pairwise_cons]
      refine ⟨?_, List.pairwise_cons.mpr h⟩
      intro b hb
      rcases List.mem_cons.mp hb with rfl | hb
      · exact hc
      · exact le_trans (h.1 b hb) hc
    · rw [if_neg hc, List.pairwise_cons]
      refine ⟨?_, ih h.2⟩
      intro b hb
      rcases (mem_insertByDesc key x b ys).mp hb with rfl | hb
      · exact le_of_lt (lt_of_not_le hc)
      · exact h.1 b hb

theorem mem_pySortByDesc {α β : Type} [LinearOrder β] (key : α → β) (z : α)
    (l : List α) : z ∈ pySortByDesc key l ↔ z ∈ l := by
  induction l with
  | nil => simp [pySortByDesc]
  | cons x t ih =>
    rw [pySortByDesc, mem_insertByDesc, ih, List.mem_cons]

theorem pairwise_pySortByDesc {α β : Type} [LinearOrder β] (key : α → β)
    (l : List α) : (pySortByDesc key l).Pairwise (fun a b => key b ≤ key a) := by
  induction l with
  | nil => simp [pySortByDesc]
  | cons x t ih => exact pairwise_insertByDesc key x _ ih

theorem filter_insertByDesc {α β : Type} [LinearOrder β] (key : α → β) (s : β)
    (x : α) (l : List α) :
    (insertByDesc key x l).filter (fun z => decide (key z = s)) =
      if key x = s then x :: l.filter (fun z => decide (key z = s))
      else l.filter (fun z => decide (key z = s)) := by
  induction l with
  | nil =>
    by_cases h : key x = s <;> simp [insertByDesc, h]
  | cons y ys ih =>
    rw [insertByDesc]
    by_cases hc : key y ≤ key x
    · rw [if_pos hc]
      by_cases hx : key x = s <;> simp [List.filter_cons, hx]
    · rw [if_neg hc, List.filter_cons, ih, List.filter_cons]
      by_cases hx : key x = s
      · have hy : ¬ (key y = s) := by
          intro hy
          exact absurd (le_of_eq (hy.trans hx.symm)) hc
        simp [hx, hy]
      · simp [hx]

theorem filter_pySortByDesc {α β : Type} [LinearOrder β] (key : α → β) (s : β)
    (l : List α) :
    (pySortByDesc key l).filter (fun z => decide (key z = s)) =
      l.filter (fun z => decide (key z = s)) := by
  induction l with
  | nil => rfl
  | cons x t ih =>
    rw [pySortByDesc, filter_insertByDesc, ih, List.filter_cons]
    by_cases hx : key x = s <;> simp [hx]

theorem le_foldl_max {α : Type} (g : α → ℚ) (l : List α) (i : ℚ) :
    i ≤ l.foldl (fun b a => max b (g a)) i := by
  induction l generalizing i with
  | nil => exact le_refl i
  | cons a t ih => exact le_trans (le_max_left i (g a)) (ih (max i (g a)))

theorem mem_le_foldl_max {α : Type} (g : α → ℚ) (l : List α) (x : α) (hx : x ∈ l)
    (i : ℚ) : g x ≤ l.foldl (fun b a => max b (g a)) i := by
  induction l generalizing i with
  | nil => cases hx
  | cons a t ih =>
    rcases List.mem_cons.mp hx with rfl | hx
    · exact le_trans (le_max_right i (g x)) (le_foldl_max g t (max i (g x)))
    · exact ih hx (max i (g a))

theorem waitLoop_skip (f : MsgData → Option String) (timeout : ℚ)
    (pre rest : List (ℚ × MsgData)) (t : ℚ) (d : MsgData) (v : String)
    (hpre : ∀ p ∈ pre, f p.2 = none ∧ p.1 ≤ timeout) (hd : f d = some v) :
    waitLoop f timeout (pre ++ (t, d) :: rest) = some v := by
  induction pre with
  | nil => simp [waitLoop, hd]
  | cons p ps ih =>
    obtain ⟨pt, pd⟩ := p
    have hp := hpre (pt, pd) (List.mem_cons_self _ _)
    rw [List.cons_append, waitLoop]
    simp only [hp.1, if_neg (not_lt.mpr hp.2)]
    exact ih (fun x hx => hpre x (List.mem_cons_of_mem _ hx))

theorem pyStrip_all_ws (s : List Char) (h : ∀ c ∈ s, c.isWhitespace = true) :
    pyStrip s = [] := by
  unfold pyStrip
  rw [List.dropWhile_eq_nil_iff.mpr h]
  rfl

theorem mem_dedupKeysGo (l : List (List Char)) :
    ∀ (seen : List (List Char)) (a : List Char), a ∈ l →
      a ∈ seen ∨ a ∈ dedupKeysGo seen l := by
  induction l with
  | nil => intro seen a h; cases h
  | cons x t ih =>
    intro seen a h
    rw [dedupKeysGo]
    by_cases hx : x ∈ seen
    · rw [if_pos hx]
      rcases List.mem_cons.mp h with rfl | ht
      · exact Or.inl hx
      · exact ih seen a ht
    · rw [if_neg hx]
      rcases List.mem_cons.mp h with rfl | ht
      · exact Or.inr (List.mem_cons_self _ _)
      · rcases ih (seen ++ [x]) a ht with hs | hd
        · rcases List.mem_append.mp hs with hs | hs
          · exact Or.inl hs
          · simp only [List.mem_singleton] at hs
            subst hs
            exact Or.inr (List.mem_cons_self _ _)
        · exact Or.inr (List.mem_cons_of_mem _ hd)

theorem mem_dedupKeys (l : List (List Char)) (a : List Char) (h : a ∈ l) :
    a ∈ dedupKeys l := by
  rcases mem_dedupKeysGo l [] a h with hs | hd
  · cases hs
  · exact hd

theorem dl_self (x : List Char) : dl x x = 0 := by
  simp [dl]

theorem tierSim_self (x : List Char) (hx : x ≠ []) : tierSim x x = 1 := by
  simp [tierSim, hx]

theorem pyReplace_ne_nil (p r s : List Char) (hr : r ≠ []) (hs : s ≠ []) :
    pyReplace p r s ≠ [] := by
  match s with
  | [] => exact absurd rfl hs
  | c :: rest =>
    show pyReplaceF p r (c :: rest).length (c :: rest) ≠ []
    rw [List.length_cons, pyReplaceF]
    by_cases h : p ≠ [] ∧ p <+: (c :: rest)
    · rw [if_pos h]
      exact List.append_ne_nil_of_left_ne_nil hr _
    · rw [if_neg h]
      exact List.cons_ne_nil c _

theorem phoneticFold_ne_nil (s : List Char) (hs : s ≠ []) : phoneticFold s ≠ [] := by
  unfold phoneticFold
  refine pyReplace_ne_nil _ _ _ (by simp) ?_
  refine pyReplace_ne_nil _ _ _ (by simp) ?_
  refine pyReplace_ne_nil _ _ _ (by simp) ?_
  refine pyReplace_ne_nil _ _ _ (by simp) ?_
  refine pyReplace_ne_nil _ _ _ (by simp) ?_
  exact pyReplace_ne_nil _ _ _ (by simp) hs

theorem splitWsGo_no_ws (s : List Char) :
    ∀ acc : List Char, (∀ c ∈ s, c.isWhitespace = false) → (s ≠ [] ∨ acc ≠ []) →
      splitWsGo s acc = [acc.reverse ++ s] := by
  induction s with
  | nil =>
    intro acc _ h
    rcases h with h | h
    · exact absurd rfl h
    · simp [splitWsGo, h]
  | cons c rest ih =>
    intro acc hs _
    rw [splitWsGo]
    rw [hs c (List.mem_cons_self c rest)]
    simp only [Bool.false_eq_true, if_false]
    rw [ih (c :: acc) (fun x hx => hs x (List.mem_cons_of_mem c hx))
        (Or.inr (List.cons_ne_nil c acc))]
    simp

theorem splitWs_single (s : List Char) (hne : s ≠ [])
    (hs : ∀ c ∈ s, c.isWhitespace = false) : splitWs s = [s] := by
  unfold splitWs
  rw [splitWsGo_no_ws s [] hs (Or.inl hne)]
  simp

theorem splitSepGo_no_sep (sep : Char) (s : List Char) :
    ∀ acc : List Char, (∀ c ∈ s, c ≠ sep) → splitSepGo sep s acc = [acc.reverse ++ s] := by
  induction s with
  | nil => intro acc _; simp [splitSepGo]
  | cons c rest ih =>
    intro acc hs
    rw [splitSepGo, if_neg (hs c (List.mem_cons_self c rest))]
    rw [ih (c :: acc) (fun x hx => hs x (List.mem_cons_of_mem c hx))]
    simp

theorem splitSep_single (sep : Char) (s : List Char) (hs : ∀ c ∈ s, c ≠ sep) :
    splitSep sep s = [s] := by
  unfold splitSep
  rw [splitSepGo_no_sep sep s [] hs]
  simp

theorem tokenize_single (s : List Char) (hne : s ≠ [])
    (hs : ∀ c ∈ s, c.isWhitespace = false ∧ c ≠ '-') : tokenize s = [s] := by
  unfold tokenize
  rw [splitWs_single s hne (fun c hc => (hs c hc).1)]
  simp only [List.flatMap_cons, List.flatMap_nil, List.append_nil]
  rw [splitSep_single '-' s (fun c hc => (hs c hc).2)]
  simp [hne]

theorem not_suffix_append (root suf sufB : List Char) (h1 : ¬ suf <:+ sufB)
    (h2 : ¬ sufB <:+ suf) : ¬ sufB <:+ root ++ suf := fun h =>
  (List.suffix_or_suffix_of_suffix h (List.suffix_append root suf)).elim h2 h1

theorem stripSuffixGo_skip (s sufB : List Char) (rest : List (List Char))
    (h : ¬ sufB <:+ s) : stripSuffixGo s (sufB :: rest) = stripSuffixGo s rest := by
  rw [stripSuffixGo, if_neg (fun hc => h hc.1)]

theorem stripSuffixGo_hit (s suf : List Char) (rest : List (List Char))
    (h1 : suf <:+ s) (h2 : suf.length + 1 < s.length) :
    stripSuffixGo s (suf :: rest) = s.take (s.length - suf.length) := by
  rw [stripSuffixGo, if_pos ⟨h1, h2⟩]

theorem take_append_sub (root suf : List Char) :
    (root ++ suf).take ((root ++ suf).length - suf.length) = root := by
  have h : (root ++ suf).length - suf.length = root.length := by
    simp [List.length_append]
  rw [h]
  exact List.take_left ..

theorem sortedSuffixes_eq :
    pySortByDesc List.length commonSuffixes =
      [['i','d','d','i','n'], ['u','d','d','i','n'], ['u','l','l','o','h'],
       ['q','u','l','i'], ['j','o','n'], ['b','e','k'], ['x','o','n'],
       ['h','o','n'], ['q','u','l']] := by
  decide

/-- For any root of length ≥ 2 and any suffix from the common list,
`_strip_suffix` removes exactly that suffix from `root ++ suf`: no other
entry of the length-sorted suffix list can match `root ++ suf` first. -/
theorem stripSuffix_append (root suf : List Char) (hsuf : suf ∈ commonSuffixes)
    (hlen : 2 ≤ root.length) : stripSuffix (root ++ suf) = root := by
  have hfin : suf.length + 1 < (root ++ suf).length := by
    simp only [List.length_append]
    omega
  unfold stripSuffix
  rw [sortedSuffixes_eq]
  simp only [commonSuffixes] at hsuf
  fin_cases hsuf
  · -- suf = jon
    rw [stripSuffixGo_skip _ _ _ (not_suffix_append root ['j','o','n'] ['i','d','d','i','n'] (by decide) (by decide)),
        stripSuffixGo_skip _ _ _ (not_suffix_append root ['j','o','n'] ['u','d','d','i','n'] (by decide) (by decide)),
        stripSuffixGo_skip _ _ _ (not_suffix_append root ['j','o','n'] ['u','l','l','o','h'] (by decide) (by decide)),
        stripSuffixGo_skip _ _ _ (not_suffix_append root ['j','o','n'] ['q','u','l','i'] (by decide) (by decide)),
        stripSuffixGo_hit _ _ _ (List.suffix_append root _) hfin]
    exact take_append_sub root _
  · -- suf = bek
    rw [stripSuffixGo_skip _ _ _ (not_suffix_append root ['b','e','k'] ['i','d','d','i','n'] (by decide) (by decide)),
        stripSuffixGo_skip _ _ _ (not_suffix_append root ['b','e','k'] ['u','d','d','i','n'] (by decide) (by decide)),
        stripSuffixGo_skip _ _ _ (not_suffix_append root ['b','e','k'] ['u','l','l','o','h'] (by decide) (by decide)),
        stripSuffixGo_skip _ _ _ (not_suffix_append root ['b','e','k'] ['q','u','l','i'] (by decide) (by decide)),
        stripSuffixGo_skip _ _ _ (not_suffix_append root ['b','e','k'] ['j','o','n'] (by decide) (by decide)),
        stripSuffixGo_hit _ _ _ (List.suffix_append root _) hfin]
    exact take_append_sub root _
  · -- suf = xon
    rw [stripSuffixGo_skip _ _ _ (not_suffix_append root ['x','o','n'] ['i','d','d','i','n'] (by decide) (by decide)),
        stripSuffixGo_skip _ _ _ (not_suffix_append root ['x','o','n'] ['u','d','d','i','n'] (by decide) (by decide)),
        stripSuffixGo_skip _ _ _ (not_suffix_append root ['x','o','n'] ['u','l','l','o','h'] (by decide) (by decide)),
        stripSuffixGo_skip _ _ _ (not_suffix_append root ['x','o','n'] ['q','u','l','i'] (by decide) (by decide)),
        stripSuffixGo_skip _ _ _ (not_suffix_append root ['x','o','n'] ['j','o','n'] (by decide) (by decide)),
        stripSuffixGo_skip _ _ _ (not_suffix_append root ['x','o','n'] ['b','e','k'] (by decide) (by decide)),
        stripSuffixGo_hit _ _ _ (List.suffix_append root _) hfin]
    exact take_append_sub root _
  · -- suf = hon
    rw [stripSuffixGo_skip _ _ _ (not_suffix_append root ['h','o','n'] ['i','d','d','i','n'] (by decide) (by decide)),
        stripSuffixGo_skip _ _ _ (not_suffix_append root ['h','o','n'] ['u','d','d','i','n'] (by decide) (by decide)),
        stripSuffixGo_skip _ _ _ (not_suffix_append root ['h','o','n'] ['u','l','l','o','h'] (by decide) (by decide)),
        stripSuffixGo_skip _ _ _ (not_suffix_append root ['h','o','n'] ['q','u','l','i'] (by decide) (by decide)),
        stripSuffixGo_skip _ _ _ (not_suffix_append root ['h','o','n'] ['j','o','n'] (by decide) (by decide)),
        stripSuffixGo_skip _ _ _ (not_suffix_append root ['h','o','n'] ['b','e','k'] (by decide) (by decide)),
        stripSuffixGo_skip _ _ _ (not_suffix_append root ['h','o','n'] ['x','o','n'] (by decide) (by decide)),
        stripSuffixGo_hit _ _ _ (List.suffix_append root _) hfin]
    exact take_append_sub root _
  · -- suf = iddin
    rw [stripSuffixGo_hit _ _ _ (List.suffix_append root _) hfin]
    exact take_append_sub root _
  · -- suf = uddin
    rw [stripSuffixGo_skip _ _ _ (not_suffix_append root ['u','d','d','i','n'] ['i','d','d','i','n'] (by decide) (by decide)),
        stripSuffixGo_hit _ _ _ (List.suffix_append root _) hfin]
    exact take_append_sub root _
  · -- suf = ulloh
    rw [stripSuffixGo_skip _ _ _ (not_suffix_append root ['u','l','l','o','h'] ['i','d','d','i','n'] (by decide) (by decide)),
        stripSuffixGo_skip _ _ _ (not_suffix_append root ['u','l','l','o','h'] ['u','d','d','i','n'] (by decide) (by decide)),
        stripSuffixGo_hit _ _ _ (List.suffix_append root _) hfin]
    exact take_append_sub root _
  · -- suf = quli
    rw [stripSuffixGo_skip _ _ _ (not_suffix_append root ['q','u','l','i'] ['i','d','d','i','n'] (by decide) (by decide)),
        stripSuffixGo_skip _ _ _ (not_suffix_append root ['q','u','l','i'] ['u','d','d','i','n'] (by decide) (by decide)),
        stripSuffixGo_skip _ _ _ (not_suffix_append root ['q','u','l','i'] ['u','l','l','o','h'] (by decide) (by decide)),
        stripSuffixGo_hit _ _ _ (List.suffix_append root _) hfin]
    exact take_append_sub root _
  · -- suf = qul
    rw [stripSuffixGo_skip _ _ _ (not_suffix_append root ['q','u','l'] ['i','d','d','i','n'] (by decide) (by decide)),
        stripSuffixGo_skip _ _ _ (not_suffix_append root ['q','u','l'] ['u','d','d','i','n'] (by decide) (by decide)),
        stripSuffixGo_skip _ _ _ (not_suffix_append root ['q','u','l'] ['u','l','l','o','h'] (by decide) (by decide)),
        stripSuffixGo_skip _ _ _ (not_suffix_append root ['q','u','l'] ['q','u','l','i'] (by decide) (by decide)),
        stripSuffixGo_skip _ _ _ (not_suffix_append root ['q','u','l'] ['j','o','n'] (by decide) (by decide)),
        stripSuffixGo_skip _ _ _ (not_suffix_append root ['q','u','l'] ['b','e','k'] (by decide) (by decide)),
        stripSuffixGo_skip _ _ _ (not_suffix_append root ['q','u','l'] ['x','o','n'] (by decide) (by decide)),
        stripSuffixGo_skip _ _ _ (not_suffix_append root ['q','u','l'] ['h','o','n'] (by decide) (by decide)),
        stripSuffixGo_hit _ _ _ (List.suffix_append root _) hfin]
    exact take_append_sub root _

/-- The score `filter_objects_by_holder` computes for an item (0 for a
missing or non-string holder, which never passes the floor-filter). -/
def itemScore (up : Bool) (q : String) (it : PyDict) : ℚ :=
  match it.holder with
  | .str h => scoreCandidate up q.data h.data
  | _ => 0

/-- The keep-condition of `filter_objects_by_holder`: holder is a string
and the score reaches the floor. -/
def keepB (up : Bool) (q : String) (ms : ℚ) (it : PyDict) : Bool :=
  match it.holder with
  | .str _ => decide (ms ≤ itemScore up q it)
  | _ => false

theorem scoredList_false_eq (up : Bool) (q : String) (ms : ℚ) (items : List PyDict) :
    scoredList up false q ms items =
      (items.filter (keepB up q ms)).map (fun it => (it, itemScore up q it)) := by
  induction items with
  | nil => rfl
  | cons obj rest ih =>
    rw [scoredList, List.filter_cons]
    cases hh : obj.holder with
    | str h =>
      by_cases hk : ms ≤ scoreCandidate up q.data h.data
      · simp [keepB, itemScore, hh, hk, ih]
      · simp [keepB, itemScore, hh, hk, ih]
    | absent => simp [keepB, hh, ih]
    | nonString t => simp [keepB, hh, ih]

theorem set_append_len {α : Type} (l : List α) (b x : α) :
    (l ++ [b]).set l.length x = l ++ [x] := by
  simp

theorem filterHeapGo_take (up incS : Bool) (q : String) (ms : ℚ)
    (addrs : List Nat) :
    ∀ (heap : List PyDict) (scored : List (Nat × ℚ)),
      (filterHeapGo up incS q ms addrs heap scored).1.take heap.length = heap := by
  induction addrs with
  | nil =>
    intro heap scored
    rw [filterHeapGo]
    exact List.take_length heap
  | cons a rest ih =>
    intro heap scored
    rw [filterHeapGo]
    cases hh : (heap.getD a default).holder with
    | str h =>
      simp only [hh]
      by_cases hk : ms ≤ scoreCandidate up q.data h.data
      · rw [if_pos hk]
        have key : ∀ (H : List PyDict) (S : List (Nat × ℚ)),
            H.take heap.length = heap → heap.length ≤ H.length →
            (filterHeapGo up incS q ms rest H S).1.take heap.length = heap := by
          intro H S hH hlen
          calc (filterHeapGo up incS q ms rest H S).1.take heap.length
              = ((filterHeapGo up incS q ms rest H S).1.take H.length).take heap.length := by
                rw [List.take_take]
                congr 1
                omega
            _ = H.take heap.length := by rw [ih H S]
            _ = heap := hH
        apply key
        · by_cases hin : incS
          · simp only [if_pos hin]
            rw [set_append_len]
            exact List.take_left ..
          · simp only [if_neg hin]
            exact List.take_left ..
        · by_cases hin : incS <;> simp [hin]
      · rw [if_neg hk]
        exact ih heap scored
    | absent =>
      simp only [hh]
      exact ih heap scored
    | nonString t =>
      simp only [hh]
      exact ih heap scored

/-! ## Concrete runs -/

/-- A recipient record with a full 16-digit account number. -/
def recAli : PyDict :=
  { id := some "r1", holder := .str "Alisher", pan := some "8600123412345678" }

/-- An environment in which every step succeeds: valid session
credentials, one matching recipient, one card, selections and the OTP
all arriving within their 180 s windows, and a successful pay call. -/
def envBase : Env :=
  { sessionRaw := some (.obj (some "tok") (some "u1"))
    recipients := .ok [recAli]
    rsid := "rs"
    recipientMsgs := [(1, .payload none (some "r1") none)]
    cards := .ok [{ id := some "c1" }]
    csid := "cs"
    cardMsgs := [(2, .payload none none (some "c1"))]
    recById := .ok recAli
    prepay := .ok { id := some "p9" }
    otpMsgs := [(3, .payload (some "123456") none none)]
    payResp := .ok "OK" }

/-! ## Claims -/

/-- C5: for every session id whose entry is absent from the session
store, `make_transaction` immediately returns
`{status: ERROR, stage: "creds"}` with an empty action trace — zero
gateway calls and zero published events. -/
theorem C5_absent_session_immediate_error (e : Env) (name : String) (amount : ℚ)
    (h : e.sessionRaw = none) :
    makeTransaction e name amount =
      (Except.ok { status := "ERROR", stage := some "creds",
                   error := some "Missing credentials for session" }, []) := by
  simp [makeTransaction, getCreds, h, pyTruthyS]

theorem C5_witness :
    makeTransaction { envBase with sessionRaw := none } "Ali" 100 =
      (Except.ok { status := "ERROR", stage := some "creds",
                   error := some "Missing credentials for session" }, []) :=
  C5_absent_session_immediate_error _ "Ali" 100 rfl

unseal scoreCandidate Rat.mul Rat.inv Rat.add Rat.sub Rat.ofScientific in
/-- C1: contrary to the claim, when the gateway recipient-list call
yields a tagged error object, `make_transaction` does NOT return
`{status: ERROR, stage: "recipient_list"}`: the error dict is fed to
`filter_objects_by_holder` before the error check, iterating the dict
yields the string key `"error"`, and `.get` on a string raises an
AttributeError that escapes the orchestrator.  No structured result is
returned at all. -/
theorem C1_recipient_list_error_raises :
    makeTransaction { envBase with recipients := .err "boom" } "Ali" 100 =
      (Except.error (PyExn.attributeError "str object has no attribute get"),
       [TxAction.gatewayCall "get_recipient_sello"]) ∧
    ∀ r : TxResult,
      (makeTransaction { envBase with recipients := .err "boom" } "Ali" 100).1 ≠
        Except.ok r := by
  constructor
  · rfl
  · intro r hr
    have h1 : (makeTransaction { envBase with recipients := .err "boom" } "Ali" 100).1 =
        Except.error (PyExn.attributeError "str object has no attribute get") := rfl
    rw [h1] at hr
    cases hr

def isRecipientChoicesPublish : TxAction → Bool
  | .publish _ (.recipientChoices _ _ _) => true
  | _ => false

def isCardChoicesPublish : TxAction → Bool
  | .publish _ (.cardChoices _ _ _) => true
  | _ => false

def isCodeRequiredPublish : TxAction → Bool
  | .publish _ (.codeRequired _ _) => true
  | _ => false

unseal scoreCandidate Rat.mul Rat.inv Rat.add Rat.sub Rat.ofScientific in
/-- C2: contrary to the claim, in every confirmation-wait step the
request event is published on the broadcast channel BEFORE the waiter
subscribes to the per-correlation reply channel: in the trace of a full
run, each of the three publishes strictly precedes the matching
subscribe (and each subscribe does occur). -/
theorem C2_publish_precedes_subscribe :
    ((makeTransaction envBase "Ali" 100).2.findIdx isRecipientChoicesPublish <
        (makeTransaction envBase "Ali" 100).2.findIdx
          (fun a => a == TxAction.subscribe (SEL_CHANNEL envBase.rsid)) ∧
      (makeTransaction envBase "Ali" 100).2.findIdx
          (fun a => a == TxAction.subscribe (SEL_CHANNEL envBase.rsid)) <
        (makeTransaction envBase "Ali" 100).2.length) ∧
    ((makeTransaction envBase "Ali" 100).2.findIdx isCardChoicesPublish <
        (makeTransaction envBase "Ali" 100).2.findIdx
          (fun a => a == TxAction.subscribe (SEL_CHANNEL envBase.csid)) ∧
      (makeTransaction envBase "Ali" 100).2.findIdx
          (fun a => a == TxAction.subscribe (SEL_CHANNEL envBase.csid)) <
        (makeTransaction envBase "Ali" 100).2.length) ∧
    ((makeTransaction envBase "Ali" 100).2.findIdx isCodeRequiredPublish <
        (makeTransaction envBase "Ali" 100).2.findIdx
          (fun a => a == TxAction.subscribe (OTP_CHANNEL "p9")) ∧
      (makeTransaction envBase "Ali" 100).2.findIdx
          (fun a => a == TxAction.subscribe (OTP_CHANNEL "p9")) <
        (makeTransaction envBase "Ali" 100).2.length) := by
  decide

unseal scoreCandidate Rat.mul Rat.inv Rat.add Rat.sub Rat.ofScientific in
/-- C4 (counterexample): a fully successful run returns status
`"CONFIRMED"`, not `"PAID"`. -/
theorem C4_counterexample :
    (makeTransaction envBase "Ali" 100).1 =
      Except.ok { status := "CONFIRMED", paymentId := some "p9",
                  result := some "OK", receiver := some "r1" } ∧
    "CONFIRMED" ≠ "PAID" := by
  constructor
  · rfl
  · decide

/-- C4 (amended): for every run in which all steps succeed, the terminal
result has status CONFIRMED (the literal in the source, where the spec
says PAID) carrying the pay result payload of the gateway, the payment id,
and the originally chosen recipient reference. -/
theorem C4_success_returns_confirmed (e : Env) (name : String) (amount : ℚ)
    (tok uid : String) (hs : e.sessionRaw = some (.obj (some tok) (some uid)))
    (htok : tok ≠ "") (huid : uid ≠ "")
    (rl : List PyDict) (hrecs : e.recipients = .ok rl)
    (hfil : filterObjectsByHolder name rl 0.60 true false ≠ [])
    (chosen : String) (hsel : waitLoop extractSel 180 e.recipientMsgs = some chosen)
    (cl : List CardDict) (hcards : e.cards = .ok cl)
    (cid : String) (hcard : waitLoop extractSel 180 e.cardMsgs = some cid)
    (rec : PyDict) (hbyid : e.recById = .ok rec)
    (pre : PrepayResp) (hpre : e.prepay = .ok pre)
    (pid : String) (hpid : truthyOpt pre.id = some pid)
    (code : String) (hcode : waitLoop extractCode 180 e.otpMsgs = some code)
    (res : String) (hpay : e.payResp = .ok res) :
    (makeTransaction e name amount).1 =
      Except.ok { status := "CONFIRMED", paymentId := some pid,
                  result := some res, receiver := some chosen } := by
  simp only [makeTransaction, getCreds, hs, pyTruthyS, hrecs, waitSelectedT, waitCodeT,
    hsel, hcards, hcard, hbyid, hpre, hpid, hcode, hpay, if_neg hfil]
  simp [htok, huid]

unseal scoreCandidate Rat.mul Rat.inv Rat.add Rat.sub Rat.ofScientific in
theorem C4_witness :
    (makeTransaction envBase "Ali" 100).1 =
      Except.ok { status := "CONFIRMED", paymentId := some "p9",
                  result := some "OK", receiver := some "r1" } :=
  C4_success_returns_confirmed envBase "Ali" 100 "tok" "u1" rfl (by decide) (by decide)
    [recAli] rfl (by decide) "r1" rfl [{ id := some "c1" }] rfl "c1" rfl recAli rfl
    { id := some "p9" } rfl "p9" rfl "123456" rfl "OK" rfl

/-- C10: `filter_objects_by_holder` never mutates its inputs: after the
call (with any `include_score`), every pre-existing heap address still
holds its original dictionary — matching items are shallow-copied to
fresh addresses before the `match_score` annotation is written. -/
theorem C10_filter_never_mutates (q : String) (heap : List PyDict) (addrs : List Nat)
    (ms : ℚ) (up incS : Bool) :
    (filterObjectsByHolderHeap q heap addrs ms up incS).1.take heap.length = heap := by
  unfold filterObjectsByHolderHeap
  exact filterHeapGo_take up incS q ms addrs heap []

/-- C9: the published recipient-choice entry depends on the full account
number (`pan`) only through its last four characters — two records that
agree on everything except the non-final-four portion of `pan` publish
identical `{id, name, masked, pan_last4}` entries — and when `pan` has
more than four characters the published `pan_last4` field never equals
the full account number. -/
theorem C9_mapRec_depends_only_on_last4 (r1 r2 : PyDict) (p1 p2 : String)
    (hid : r1.id = r2.id) (hname : r1.name = r2.name) (hhold : r1.holder = r2.holder)
    (hmask : r1.masked = r2.masked) (hpm : r1.panMasked = r2.panMasked)
    (hp1 : r1.pan = some p1) (hp2 : r2.pan = some p2)
    (hne1 : p1 ≠ "") (hne2 : p2 ≠ "") (hlast : lastFour p1 = lastFour p2) :
    mapRec r1 = mapRec r2 ∧ (4 < p1.length → (mapRec r1).panLast4 ≠ some p1) := by
  constructor
  · unfold mapRec
    rw [hid, hname, hhold, hmask, hpm, hp1, hp2]
    simp only [truthyOpt, if_neg hne1, if_neg hne2, hlast]
  · intro hlen hcontra
    unfold mapRec at hcontra
    simp only [hp1, truthyOpt, if_neg hne1] at hcontra
    have h4 := Option.some.inj hcontra
    have hlen4 : (lastFour p1).length = 4 := by
      unfold lastFour
      rw [List.length_asString, List.length_drop]
      have : 4 < p1.data.length := hlen
      omega
    have hl := congrArg String.length h4
    rw [hlen4] at hl
    have : p1.length = p1.data.length := rfl
    omega

theorem C9_witness :
    mapRec { id := some "r1", holder := .str "A", pan := some "8600001234" } =
      mapRec { id := some "r1", holder := .str "A", pan := some "9999991234" } ∧
    (4 < ("8600001234" : String).length →
      (mapRec { id := some "r1", holder := .str "A",
                pan := some "8600001234" }).panLast4 ≠ some "8600001234") :=
  C9_mapRec_depends_only_on_last4 _ _ "8600001234" "9999991234" rfl rfl rfl rfl rfl
    rfl rfl (by decide) (by decide) (by decide)

unseal scoreCandidate Rat.mul Rat.inv Rat.add Rat.sub Rat.ofScientific in
/-- C3 (counterexample): the normalized pair ("axqul", "axq") has edit
distance 2, but `score` returns 0.85, not 0.70: the suffix-stripped
variant "ax" is at distance 1 from the candidate token "axq", and
`score` maximises over all variants. -/
theorem C3_counterexample :
    normalizeUz "axqul".data = "axqul".data ∧
    normalizeUz "axq".data = "axq".data ∧
    dl "axqul".data "axq".data = 2 ∧
    scoreCandidate true "axqul".data "axq".data = 0.85 ∧
    (0.85 : ℚ) ≠ 0.70 := by
  refine ⟨by decide, by decide, by decide, by decide, by decide⟩

/-- C3 (amended): the ordered tier rule itself has the claimed values:
for non-empty inputs, `_tier_similarity` returns exactly 1.0 on an exact
match, 0.85 at Damerau–Levenshtein distance 1 and 0.70 at distance 2
(at the level of `score` the claim fails, since `score` maximises over
suffix-stripped query variants — see the counterexample). -/
theorem C3_tier_distance_values (x y : List Char) (hx : x ≠ []) (hy : y ≠ []) :
    (x = y → tierSim x y = 1) ∧
    (dl x y = 1 → tierSim x y = 0.85) ∧
    (dl x y = 2 → tierSim x y = 0.70) := by
  refine ⟨?_, ?_, ?_⟩
  · intro h
    subst h
    exact tierSim_self x hx
  · intro hd
    have hxy : x ≠ y := by
      intro he
      rw [he, dl_self] at hd
      omega
    simp only [tierSim]
    rw [if_neg (by simp [hx, hy] : ¬ (x = [] ∨ y = [])), if_neg hxy, hd]
    simp
  · intro hd
    have hxy : x ≠ y := by
      intro he
      rw [he, dl_self] at hd
      omega
    simp only [tierSim]
    rw [if_neg (by simp [hx, hy] : ¬ (x = [] ∨ y = [])), if_neg hxy, hd]
    simp

theorem C3_witness :
    tierSim "ab".data "ab".data = 1 ∧
    tierSim "ab".data "ba".data = 0.85 ∧
    tierSim "axqul".data "axq".data = 0.70 :=
  ⟨(C3_tier_distance_values "ab".data "ab".data (by decide) (by decide)).1 rfl,
   (C3_tier_distance_values "ab".data "ba".data (by decide) (by decide)).2.1 (by decide),
   (C3_tier_distance_values "axqul".data "axq".data (by decide) (by decide)).2.2 (by decide)⟩

/-- C8: during a selection or OTP wait, malformed JSON and values that
are empty after whitespace trimming extract to nothing (so the loop
ignores them and keeps waiting), and whenever every message of a prefix
extracts to nothing and arrives within the deadline, a subsequent
message carrying a valid non-empty value is accepted and returned. -/
theorem C8_noise_ignored_then_accepted :
    (extractSel MsgData.malformed = none ∧ extractCode MsgData.malformed = none) ∧
    (∀ (v : String) (c r cd : Option String), (∀ ch ∈ v.data, ch.isWhitespace = true) →
      extractSel (.payload c (some v) none) = none ∧
      extractCode (.payload (some v) r cd) = none) ∧
    (∀ (pre rest : List (ℚ × MsgData)) (t : ℚ) (d : MsgData) (v : String),
      (∀ p ∈ pre, extractSel p.2 = none ∧ p.1 ≤ 180) → extractSel d = some v →
      waitLoop extractSel 180 (pre ++ (t, d) :: rest) = some v) ∧
    (∀ (pre rest : List (ℚ × MsgData)) (t : ℚ) (d : MsgData) (v : String),
      (∀ p ∈ pre, extractCode p.2 = none ∧ p.1 ≤ 180) → extractCode d = some v →
      waitLoop extractCode 180 (pre ++ (t, d) :: rest) = some v) := by
  refine ⟨⟨rfl, rfl⟩, ?_, ?_, ?_⟩
  · intro v c r cd hws
    have hstrip : pyStripS v = "" := by
      unfold pyStripS
      rw [pyStrip_all_ws v.data hws]
      rfl
    constructor
    · by_cases hv : v = ""
      · subst hv
        rfl
      · unfold extractSel
        simp only [msgRecipientId, msgCardId, pyOr, truthyOpt, if_neg hv]
        simp [hstrip]
    · by_cases hv : v = ""
      · subst hv
        rfl
      · unfold extractCode
        simp only [msgCode, truthyOpt, if_neg hv]
        simp [hstrip]
  · exact fun pre rest t d v h1 h2 => waitLoop_skip extractSel 180 pre rest t d v h1 h2
  · exact fun pre rest t d v h1 h2 => waitLoop_skip extractCode 180 pre rest t d v h1 h2

theorem C8_witness :
    waitLoop extractSel 180
      ([(1, MsgData.malformed), (2, MsgData.payload none (some "  ") none)] ++
        (3, MsgData.payload none (some " r1 ") none) :: []) = some "r1" ∧
    waitLoop extractCode 180
      ([(1, MsgData.malformed), (2, MsgData.payload (some " ") none none)] ++
        (4, MsgData.payload (some " 42 ") none none) :: []) = some "42" :=
  ⟨C8_noise_ignored_then_accepted.2.2.1 _ [] 3 _ "r1" (by decide) (by decide),
   C8_noise_ignored_then_accepted.2.2.2 _ [] 4 _ "42" (by decide) (by decide)⟩

/-- C6: with the default `include_score=False`, `filter_objects_by_holder`
returns exactly the items whose holder field is a string scoring at
least the floor, in descending score order, and for every score value
the sub-list of result items with that score equals the sub-list of kept
input items with that score in input order (stability); items whose
holder is missing or not a string are skipped, never errored. -/
theorem C6_filter_exact_sorted_stable (q : String) (items : List PyDict) (ms : ℚ)
    (up : Bool) :
    (filterObjectsByHolder q items ms up false).Pairwise
      (fun a b => itemScore up q b ≤ itemScore up q a) ∧
    ∀ s : ℚ,
      (filterObjectsByHolder q items ms up false).filter
          (fun it => decide (itemScore up q it = s)) =
        (items.filter (keepB up q ms)).filter
          (fun it => decide (itemScore up q it = s)) := by
  have hsl := scoredList_false_eq up q ms items
  have hmem2 : ∀ p ∈ pySortByDesc Prod.snd (scoredList up false q ms items),
      p.2 = itemScore up q p.1 := by
    intro p hp
    have hmem := (mem_pySortByDesc Prod.snd p _).mp hp
    rw [hsl] at hmem
    obtain ⟨it, _, rfl⟩ := List.mem_map.mp hmem
    rfl
  constructor
  · unfold filterObjectsByHolder
    rw [List.pairwise_map]
    refine (pairwise_pySortByDesc Prod.snd _).imp_of_mem ?_
    intro a b ha hb hr
    rw [← hmem2 a ha, ← hmem2 b hb]
    exact hr
  · intro s
    unfold filterObjectsByHolder
    rw [List.filter_map]
    have hcong : (pySortByDesc Prod.snd (scoredList up false q ms items)).filter
        ((fun it => decide (itemScore up q it = s)) ∘ Prod.fst) =
        (pySortByDesc Prod.snd (scoredList up false q ms items)).filter
        (fun z => decide (z.2 = s)) := by
      apply List.filter_congr
      intro p hp
      simp [Function.comp, hmem2 p hp]
    rw [hcong, filter_pySortByDesc Prod.snd s _, hsl, List.filter_map, List.map_map]
    rw [show (Prod.fst ∘ fun it : PyDict => (it, itemScore up q it)) = id from rfl,
      List.map_id]
    rfl

unseal scoreCandidate Rat.mul Rat.inv Rat.add Rat.sub Rat.ofScientific in
/-- C7 (counterexample): for the one-character root "a" and the listed
suffix "bek", the query "abek" scores 0 against the bare root: the
length guard of `_strip_suffix` (`len(s) > len(suf)+1`) refuses to strip
"bek" from a 4-character string, so no variant equals the root. -/
theorem C7_counterexample :
    ['b','e','k'] ∈ commonSuffixes ∧
    scoreCandidate true ("a".data ++ "bek".data) "a".data = 0 ∧
    ¬ (0.85 ≤ (0 : ℚ)) := by
  refine ⟨by decide, by decide, by decide⟩

/-- C7 (amended): for every root that is a non-empty single normalized
token (no whitespace, no hyphen, fixed under normalization) of length at
least 2, and every suffix in the common-suffix list such that appending
the suffix leaves the concatenation normalization-fixed, the query
`root ++ suffix` scores at least 0.85 against the bare root (the
stripped variant equals the root exactly). -/
theorem C7_suffix_query_matches_root (root suf : List Char)
    (hsuf : suf ∈ commonSuffixes) (hlen : 2 ≤ root.length)
    (hplain : ∀ c ∈ root, c.isWhitespace = false ∧ c ≠ '-')
    (hnr : normalizeUz root = root)
    (hnq : normalizeUz (root ++ suf) = root ++ suf) :
    0.85 ≤ scoreCandidate true (root ++ suf) root := by
  have hne : root ≠ [] := by
    intro h
    rw [h] at hlen
    simp at hlen
  have hstrip : stripSuffix (root ++ suf) = root := stripSuffix_append root suf hsuf hlen
  have htok : tokenize root = [root] := tokenize_single root hne hplain
  have hmem : root ∈ queryVariants (root ++ suf) := by
    unfold queryVariants
    rw [hstrip]
    apply mem_dedupKeys
    simp
  have hpf : tierSim (phoneticFold root) (phoneticFold root) = 1 :=
    tierSim_self _ (phoneticFold_ne_nil root hne)
  simp only [scoreCandidate, hnq, hnr, htok, List.headD_cons]
  rw [if_neg (by simp : ¬ ([root] : List (List Char)) = [])]
  refine le_trans ?_ (mem_le_foldl_max _ (queryVariants (root ++ suf)) root hmem 0)
  refine le_trans ?_ (le_trans (le_of_eq hpf.symm) ?_)
  · norm_num
  · exact le_max_left _ _

theorem C7_witness :
    0.85 ≤ scoreCandidate true ("sobir".data ++ "bek".data) "sobir".data :=
  C7_suffix_query_matches_root "sobir".data "bek".data (by decide) (by decide)
    (by decide) (by decide) (by decide)
